import Mathlib

/-!
Verification development for the mf-logwrapper contextual logging facade
(`src/index.js`).

The JavaScript source is shallowly embedded as follows.

* JavaScript values are `JVal`: primitives (string, number, boolean, `null`,
  `undefined`) plus references `vref a` into an explicit heap. Objects,
  arrays and `Error` instances live in the heap as `HeapObj` (a kind tag
  plus an ordered own-field list), so that mutation and shallow copying are
  modelled faithfully: `Object.assign({}, o)` allocates a fresh cell, and a
  property write updates exactly one cell.
* A pino sink is `Sink`: an allocation address (reference identity), the
  resolved `level` / `enabled` options, and the ordered list of bound
  context fields. `Sink.child`, like pino's `child`, returns a fresh
  instance whose bindings extend the parent's.
* A severity-method call emits a record `(Severity, argument list)`; the
  model of each logging method returns the list of records it hands to the
  underlying pino logger (empty when nothing is emitted).
* Module-initialisation state (`config`, `process.argv[1]`, `process.pid`)
  is a `ProcEnv`; the top-level statements of `index.js` become functions
  of that environment.
-/

/-- Embedded JavaScript values. Objects, arrays and errors are references
into the heap; primitives are immediate. -/
inductive JVal where
  | vstr (s : String)
  | vnum (n : Int)
  | vbool (b : Bool)
  | vnull
  | vundef
  | vref (a : Nat)
deriving DecidableEq, Repr

/-- Kind tag of a heap-allocated object: plain object, array, or `Error`
instance. -/
inductive ObjKind where
  | plain
  | array
  | error
deriving DecidableEq, Repr

/-- A heap cell: an object's kind together with its ordered own enumerable
fields. Array elements are stored under their index keys ("0", "1", ...),
matching the own enumerable properties `Object.assign` copies. -/
structure HeapObj where
  kind : ObjKind
  fields : List (String × JVal)
deriving DecidableEq, Repr

/-- The heap: cell at address `a` is the `a`-th list entry. -/
abbrev Heap := List HeapObj

/-- Property read `fields[k]`: first matching key, `undefined` when absent. -/
def getField : List (String × JVal) → String → JVal
  | [], _ => JVal.vundef
  | (k', v') :: rest, k => if k' = k then v' else getField rest k

/-- Property write `fields[k] = v`: update the existing slot in place, or
append a new one, as JavaScript property assignment does. -/
def setField : List (String × JVal) → String → JVal → List (String × JVal)
  | [], k, v => [(k, v)]
  | (k', v') :: rest, k, v =>
    if k' = k then (k, v) :: rest else (k', v') :: setField rest k v

/-- JavaScript truthiness (`Boolean(v)`), for `||` and `if`. -/
def truthy : JVal → Bool
  | JVal.vstr s => !(s = "")
  | JVal.vnum n => !(n = 0)
  | JVal.vbool b => b
  | JVal.vnull => false
  | JVal.vundef => false
  | JVal.vref _ => true

/-- The JavaScript `||` operator: left operand when truthy, else right. -/
def jsOr (a b : JVal) : JVal := if truthy a then a else b

/-- The `typeof` operator restricted to the embedded value forms. -/
def jsTypeof : JVal → String
  | JVal.vstr _ => "string"
  | JVal.vnum _ => "number"
  | JVal.vbool _ => "boolean"
  | JVal.vnull => "object"
  | JVal.vundef => "undefined"
  | JVal.vref _ => "object"

/-- The `instanceof Error` test: a reference to a heap cell of error kind. -/
def isErrorVal (h : Heap) : JVal → Bool
  | JVal.vref a =>
    match h[a]? with
    | some o => o.kind = ObjKind.error
    | none => false
  | _ => false

/-- Own enumerable fields of a value, as copied by `Object.assign({}, v)`.
Only reached in the source under `typeof v === 'object' && v !== null`. -/
def ownFields (h : Heap) : JVal → List (String × JVal)
  | JVal.vref a =>
    match h[a]? with
    | some o => o.fields
    | none => []
  | _ => []

/-- Allocate a fresh cell, returning the extended heap and its address. -/
def allocObj (h : Heap) (o : HeapObj) : Heap × Nat := (h ++ [o], h.length)

/-- Property write through a reference: `h[a].fields[k] = v`. -/
def heapSetField (h : Heap) (a : Nat) (k : String) (v : JVal) : Heap :=
  match h[a]? with
  | some o => h.set a { o with fields := setField o.fields k v }
  | none => h

/-- Severity levels of the six sink methods. -/
inductive Severity where
  | fatal
  | error
  | warn
  | info
  | debug
  | trace
deriving DecidableEq, Repr

/-- A record handed to the sink: severity plus the argument list. -/
abbrev Emission := Severity × List JVal

/-- A pino sink instance: reference identity (allocation address), resolved
options, and the ordered bound-context fields. -/
structure Sink where
  addr : Nat
  level : JVal
  enabled : JVal
  bindings : List (String × JVal)
deriving DecidableEq, Repr

/-- The pino `child(fields)` operation: a freshly allocated sink (new
address `fresh`) inheriting the parent's options, with the extra fields
bound after the parent's. -/
def Sink.child (s : Sink) (fields : List (String × JVal)) (fresh : Nat) : Sink :=
  { s with addr := fresh, bindings := s.bindings ++ fields }

/-- Records emitted by `pinoLogger.fatal(...args)`. -/
def Sink.fatal (_s : Sink) (args : List JVal) : List Emission :=
  [(Severity.fatal, args)]

/-- Records emitted by `pinoLogger.error(...args)`. -/
def Sink.error (_s : Sink) (args : List JVal) : List Emission :=
  [(Severity.error, args)]

/-- Records emitted by `pinoLogger.warn(...args)`. -/
def Sink.warn (_s : Sink) (args : List JVal) : List Emission :=
  [(Severity.warn, args)]

/-- Records emitted by `pinoLogger.info(...args)`. -/
def Sink.info (_s : Sink) (args : List JVal) : List Emission :=
  [(Severity.info, args)]

/-- Records emitted by `pinoLogger.debug(...args)`. -/
def Sink.debug (_s : Sink) (args : List JVal) : List Emission :=
  [(Severity.debug, args)]

/-- Records emitted by `pinoLogger.trace(...args)`. -/
def Sink.trace (_s : Sink) (args : List JVal) : List Emission :=
  [(Severity.trace, args)]

/-- The `ContextLogger` class: wraps exactly one pino sink. -/
structure ContextLogger where
  pinoLogger : Sink
deriving DecidableEq, Repr

/-- Method `fatal(...args)`: forwards unchanged to the sink. -/
def ContextLogger.fatal (l : ContextLogger) (args : List JVal) : List Emission :=
  l.pinoLogger.fatal args

/-- Method `error(...args)`: forwards unchanged to the sink. -/
def ContextLogger.error (l : ContextLogger) (args : List JVal) : List Emission :=
  l.pinoLogger.error args

/-- Method `warn(...args)`: forwards unchanged to the sink. -/
def ContextLogger.warn (l : ContextLogger) (args : List JVal) : List Emission :=
  l.pinoLogger.warn args

/-- Method `info(...args)`: forwards unchanged to the sink. -/
def ContextLogger.info (l : ContextLogger) (args : List JVal) : List Emission :=
  l.pinoLogger.info args

/-- Method `debug(...args)`: forwards unchanged to the sink. -/
def ContextLogger.debug (l : ContextLogger) (args : List JVal) : List Emission :=
  l.pinoLogger.debug args

/-- Method `trace(...args)`: forwards unchanged to the sink. -/
def ContextLogger.trace (l : ContextLogger) (args : List JVal) : List Emission :=
  l.pinoLogger.trace args

/-- Method `debugF(functionName, ...args)` of `src/index.js` lines 130-146,
over heap `h`: returns the final heap and the records handed to the sink. -/
def ContextLogger.debugF (l : ContextLogger) (h : Heap) (functionName : String)
    (args : List JVal) : Heap × List Emission :=
  match args with
  | [] => (h, [])
  | firstArg :: rest =>
    if isErrorVal h firstArg then
      (h, l.pinoLogger.debug (firstArg :: rest))
    else if jsTypeof firstArg = "string" then
      let (h2, a) := allocObj h ⟨ObjKind.plain, [("_fun", JVal.vstr functionName)]⟩
      (h2, l.pinoLogger.debug (JVal.vref a :: firstArg :: rest))
    else if jsTypeof firstArg = "object" ∧ firstArg ≠ JVal.vnull then
      let (h2, a) := allocObj h ⟨ObjKind.plain, ownFields h firstArg⟩
      let h3 := heapSetField h2 a "_fun" (JVal.vstr functionName)
      (h3, l.pinoLogger.debug (JVal.vref a :: rest))
    else
      (h, l.pinoLogger.debug (firstArg :: rest))

/-- Method `traceF(functionName, ...args)` of `src/index.js` lines 156-172,
over heap `h`: returns the final heap and the records handed to the sink. -/
def ContextLogger.traceF (l : ContextLogger) (h : Heap) (functionName : String)
    (args : List JVal) : Heap × List Emission :=
  match args with
  | [] => (h, [])
  | firstArg :: rest =>
    if isErrorVal h firstArg then
      (h, l.pinoLogger.trace (firstArg :: rest))
    else if jsTypeof firstArg = "string" then
      let (h2, a) := allocObj h ⟨ObjKind.plain, [("_fun", JVal.vstr functionName)]⟩
      (h2, l.pinoLogger.trace (JVal.vref a :: firstArg :: rest))
    else if jsTypeof firstArg = "object" ∧ firstArg ≠ JVal.vnull then
      let (h2, a) := allocObj h ⟨ObjKind.plain, ownFields h firstArg⟩
      let h3 := heapSetField h2 a "_fun" (JVal.vstr functionName)
      (h3, l.pinoLogger.trace (JVal.vref a :: rest))
    else
      (h, l.pinoLogger.trace (firstArg :: rest))

/-- Module-initialisation environment: the `config` provider's `logger` and
`appName` entries (absent when `config.has` is false), `process.argv[1]`
(`vundef` when absent) and `process.pid`. -/
structure ProcEnv where
  cfgLogger : Option (List (String × JVal))
  cfgAppName : Option JVal
  argv1 : JVal
  pid : Int
deriving DecidableEq, Repr

/-- The initial `loggerConfig` object: `config.get('logger')` when
`config.has('logger')`, else `{}` (`src/index.js` lines 10-13). -/
def rawLoggerSection (env : ProcEnv) : List (String × JVal) :=
  match env.cfgLogger with
  | some fs => fs
  | none => []

/-- The resolved `loggerConfig` after lines 15-16:
`loggerConfig.level = loggerConfig.level || 'info'` and
`loggerConfig.enabled = !(loggerConfig.enabled === false)`. -/
def loggerConfig (env : ProcEnv) : List (String × JVal) :=
  let lc1 := setField (rawLoggerSection env) "level"
    (jsOr (getField (rawLoggerSection env) "level") (JVal.vstr "info"))
  setField lc1 "enabled"
    (JVal.vbool (!(getField lc1 "enabled" = JVal.vbool false)))

/-- The root sink `pino(loggerConfig)`: address 0, options read from the
resolved config, no bound context. -/
def pinoRoot (opts : List (String × JVal)) : Sink :=
  { addr := 0
    level := getField opts "level"
    enabled := getField opts "enabled"
    bindings := [] }

/-- The `appName` local of lines 20-23: the configured value or `undefined`. -/
def appNameVal (env : ProcEnv) : JVal :=
  match env.cfgAppName with
  | some v => v
  | none => JVal.vundef

/-- The `_app` identity value of line 26:
`appName || process.argv[1] || process.pid`. -/
def appIdentity (env : ProcEnv) : JVal :=
  jsOr (jsOr (appNameVal env) env.argv1) (JVal.vnum env.pid)

/-- The module-level `baseLogger` of lines 25-27: child of the root sink
binding `_app`; modelled with allocation address 1. -/
def baseLogger (env : ProcEnv) : Sink :=
  (pinoRoot (loggerConfig env)).child [("_app", appIdentity env)] 1

/-- Function `getLogger(moduleName, classFileName)` of lines 38-53. Absent
parameters are `none` (the `undefined` sentinel). Each `child` call
allocates a fresh sink; the first derivation in this call gets address 2,
the second address 3. -/
def getLogger (env : ProcEnv) (moduleName classFileName : Option String) : Sink :=
  let newLogger := baseLogger env
  let step :=
    match moduleName with
    | some m => (newLogger.child [("_mod", JVal.vstr m)] 2, 3)
    | none => (newLogger, 2)
  match classFileName with
  | some c => step.1.child [("_cls", JVal.vstr c)] step.2
  | none => step.1

/-- Function `getContextLogger(moduleName, classFileName)` of lines 183-185:
wraps `getLogger`'s sink in a `ContextLogger`. -/
def getContextLogger (env : ProcEnv) (moduleName classFileName : Option String) :
    ContextLogger :=
  ⟨getLogger env moduleName classFileName⟩

/-! ### Concrete instances used by witnesses and counterexamples -/

/-- A concrete `ContextLogger` over the bare root sink. -/
def cl0 : ContextLogger := ⟨pinoRoot []⟩

/-- A one-cell heap holding the array `[1]`. -/
def arrHeap : Heap := [⟨ObjKind.array, [("0", JVal.vnum 1)]⟩]

/-- A one-cell heap holding the plain object `{x: 1, _fun: 'old'}`. -/
def objHeap : Heap := [⟨ObjKind.plain, [("x", JVal.vnum 1), ("_fun", JVal.vstr "old")]⟩]

/-- Environment with no `logger` config section. -/
def envNoLogger : ProcEnv := ⟨none, none, JVal.vundef, 1⟩

/-- Environment with `{logger: {enabled: 0}}`. -/
def envEnabledZero : ProcEnv := ⟨some [("enabled", JVal.vnum 0)], none, JVal.vundef, 1⟩

/-- Environment with `appName` configured as the empty string and a script
path in `process.argv[1]`. -/
def envC9 : ProcEnv := ⟨none, some (JVal.vstr ""), JVal.vstr "/app/main.js", 42⟩

/-! ### Helper lemmas -/

theorem getField_setField_self : ∀ (fs : List (String × JVal)) (k : String) (v : JVal),
    getField (setField fs k v) k = v
  | [], k, v => by simp [setField, getField]
  | (k', v') :: rest, k, v => by
    by_cases hk : k' = k
    · simp [setField, getField, hk]
    · simp [setField, getField, hk, getField_setField_self rest k v]

theorem getField_setField_ne : ∀ (fs : List (String × JVal)) (k1 k2 : String) (v : JVal),
    k1 ≠ k2 → getField (setField fs k1 v) k2 = getField fs k2
  | [], k1, k2, v, hne => by simp [setField, getField, hne]
  | (k', v') :: rest, k1, k2, v, hne => by
    by_cases hk : k' = k1
    · subst hk
      simp [setField, getField, hne]
    · simp [setField, getField, hk, getField_setField_ne rest k1 k2 v hne]

theorem set_concat_self (h : Heap) (o o' : HeapObj) :
    (h ++ [o]).set h.length o' = h ++ [o'] := by
  rw [List.set_append_right _ _ (Nat.le_refl _), Nat.sub_self]
  rfl

theorem heapSetField_concat (h : Heap) (o : HeapObj) (k : String) (v : JVal) :
    heapSetField (h ++ [o]) h.length k v =
      h ++ [{ o with fields := setField o.fields k v }] := by
  simp [heapSetField, List.getElem?_concat_length, set_concat_self]

/-- Computation of `debugF` in the plain-object/array branch: a fresh plain
object is allocated holding a copy of the fields with `_fun` set. -/
theorem debugF_obj_branch (l : ContextLogger) (h : Heap) (a : Nat) (k : ObjKind)
    (fs : List (String × JVal)) (f : String) (rest : List JVal)
    (ha : h[a]? = some ⟨k, fs⟩) (hk : k ≠ ObjKind.error) :
    l.debugF h f (JVal.vref a :: rest) =
      (h ++ [⟨ObjKind.plain, setField fs "_fun" (JVal.vstr f)⟩],
       [(Severity.debug, JVal.vref h.length :: rest)]) := by
  have h1 : ¬ (isErrorVal h (JVal.vref a) = true) := by simp [isErrorVal, ha, hk]
  have h2 : ¬ (jsTypeof (JVal.vref a) = "string") := by simp [jsTypeof]
  have h3 : jsTypeof (JVal.vref a) = "object" ∧ JVal.vref a ≠ JVal.vnull :=
    ⟨rfl, by simp⟩
  simp [ContextLogger.debugF, h1, h2, h3, ownFields, ha, allocObj,
    heapSetField_concat, Sink.debug]

/-- Computation of `traceF` in the plain-object/array branch. -/
theorem traceF_obj_branch (l : ContextLogger) (h : Heap) (a : Nat) (k : ObjKind)
    (fs : List (String × JVal)) (f : String) (rest : List JVal)
    (ha : h[a]? = some ⟨k, fs⟩) (hk : k ≠ ObjKind.error) :
    l.traceF h f (JVal.vref a :: rest) =
      (h ++ [⟨ObjKind.plain, setField fs "_fun" (JVal.vstr f)⟩],
       [(Severity.trace, JVal.vref h.length :: rest)]) := by
  have h1 : ¬ (isErrorVal h (JVal.vref a) = true) := by simp [isErrorVal, ha, hk]
  have h2 : ¬ (jsTypeof (JVal.vref a) = "string") := by simp [jsTypeof]
  have h3 : jsTypeof (JVal.vref a) = "object" ∧ JVal.vref a ≠ JVal.vnull :=
    ⟨rfl, by simp⟩
  simp [ContextLogger.traceF, h1, h2, h3, ownFields, ha, allocObj,
    heapSetField_concat, Sink.trace]

/-- The heap after any `debugF` call extends the initial heap on the right. -/
theorem debugF_heap_extends (l : ContextLogger) (h : Heap) (f : String)
    (args : List JVal) : ∃ ext : Heap, (l.debugF h f args).1 = h ++ ext := by
  match args with
  | [] => exact ⟨[], by simp [ContextLogger.debugF]⟩
  | firstArg :: rest =>
    by_cases e1 : isErrorVal h firstArg
    · exact ⟨[], by simp [ContextLogger.debugF, e1]⟩
    · by_cases e2 : jsTypeof firstArg = "string"
      · exact ⟨[⟨ObjKind.plain, [("_fun", JVal.vstr f)]⟩],
          by simp [ContextLogger.debugF, e1, e2, allocObj]⟩
      · by_cases e3 : jsTypeof firstArg = "object" ∧ firstArg ≠ JVal.vnull
        · refine ⟨[⟨ObjKind.plain,
            setField (ownFields h firstArg) "_fun" (JVal.vstr f)⟩], ?_⟩
          simp [ContextLogger.debugF, e1, e2, e3, allocObj, heapSetField_concat]
        · exact ⟨[], by simp [ContextLogger.debugF, e1, e2, e3]⟩

/-- The heap after any `traceF` call extends the initial heap on the right. -/
theorem traceF_heap_extends (l : ContextLogger) (h : Heap) (f : String)
    (args : List JVal) : ∃ ext : Heap, (l.traceF h f args).1 = h ++ ext := by
  match args with
  | [] => exact ⟨[], by simp [ContextLogger.traceF]⟩
  | firstArg :: rest =>
    by_cases e1 : isErrorVal h firstArg
    · exact ⟨[], by simp [ContextLogger.traceF, e1]⟩
    · by_cases e2 : jsTypeof firstArg = "string"
      · exact ⟨[⟨ObjKind.plain, [("_fun", JVal.vstr f)]⟩],
          by simp [ContextLogger.traceF, e1, e2, allocObj]⟩
      · by_cases e3 : jsTypeof firstArg = "object" ∧ firstArg ≠ JVal.vnull
        · refine ⟨[⟨ObjKind.plain,
            setField (ownFields h firstArg) "_fun" (JVal.vstr f)⟩], ?_⟩
          simp [ContextLogger.traceF, e1, e2, e3, allocObj, heapSetField_concat]
        · exact ⟨[], by simp [ContextLogger.traceF, e1, e2, e3]⟩

/-! ### Claim theorems -/

/-- C1: for every non-null plain object `o` (heap cell of plain kind),
`debugF(f, o, ...rest)` emits exactly one record through the plain `debug`
method (and `traceF` through `trace`) whose first argument is a reference
to a freshly allocated shallow copy of `o` with the `_fun` field set to
`f`, with the remaining arguments forwarded unchanged in order. -/
theorem debugF_traceF_object_copy (l : ContextLogger) (h : Heap) (a : Nat)
    (fs : List (String × JVal)) (f : String) (rest : List JVal)
    (ha : h[a]? = some ⟨ObjKind.plain, fs⟩) :
    l.debugF h f (JVal.vref a :: rest) =
      (h ++ [⟨ObjKind.plain, setField fs "_fun" (JVal.vstr f)⟩],
       [(Severity.debug, JVal.vref h.length :: rest)]) ∧
    l.traceF h f (JVal.vref a :: rest) =
      (h ++ [⟨ObjKind.plain, setField fs "_fun" (JVal.vstr f)⟩],
       [(Severity.trace, JVal.vref h.length :: rest)]) :=
  ⟨debugF_obj_branch l h a ObjKind.plain fs f rest ha (by decide),
   traceF_obj_branch l h a ObjKind.plain fs f rest ha (by decide)⟩

/-- C1 witness: concrete evaluation on `{x: 1, _fun: 'old'}`. -/
theorem debugF_traceF_object_copy_witness :
    (objHeap[0]? = some ⟨ObjKind.plain, [("x", JVal.vnum 1), ("_fun", JVal.vstr "old")]⟩) ∧
    cl0.debugF objHeap "myFun" (JVal.vref 0 :: [JVal.vstr "msg"]) =
      (objHeap ++ [⟨ObjKind.plain,
        setField [("x", JVal.vnum 1), ("_fun", JVal.vstr "old")] "_fun" (JVal.vstr "myFun")⟩],
       [(Severity.debug, JVal.vref objHeap.length :: [JVal.vstr "msg"])]) :=
  ⟨by rfl,
   (debugF_traceF_object_copy cl0 objHeap 0 [("x", JVal.vnum 1), ("_fun", JVal.vstr "old")]
     "myFun" [JVal.vstr "msg"] (by rfl)).1⟩

/-- C2: after `debugF(f, o, ...rest)` or `traceF(f, o, ...rest)`, the
caller-supplied plain object `o` is unchanged in the heap: its cell still
holds exactly the same kind and fields. -/
theorem debugF_traceF_caller_object_unchanged (l : ContextLogger) (h : Heap)
    (a : Nat) (fs : List (String × JVal)) (f : String) (rest : List JVal)
    (ha : h[a]? = some ⟨ObjKind.plain, fs⟩) :
    ((l.debugF h f (JVal.vref a :: rest)).1)[a]? = some ⟨ObjKind.plain, fs⟩ ∧
    ((l.traceF h f (JVal.vref a :: rest)).1)[a]? = some ⟨ObjKind.plain, fs⟩ := by
  have hlt : a < h.length := by
    rcases List.getElem?_eq_some_iff.mp ha with ⟨hl, _⟩
    exact hl
  obtain ⟨ext1, hext1⟩ := debugF_heap_extends l h f (JVal.vref a :: rest)
  obtain ⟨ext2, hext2⟩ := traceF_heap_extends l h f (JVal.vref a :: rest)
  rw [hext1, hext2, List.getElem?_append_left hlt, List.getElem?_append_left hlt]
  exact ⟨ha, ha⟩

/-- C2 witness: concrete evaluation on `{x: 1, _fun: 'old'}`. -/
theorem debugF_traceF_caller_object_unchanged_witness :
    (objHeap[0]? = some ⟨ObjKind.plain, [("x", JVal.vnum 1), ("_fun", JVal.vstr "old")]⟩) ∧
    ((cl0.debugF objHeap "myFun" (JVal.vref 0 :: [JVal.vstr "msg"])).1)[0]? =
      some ⟨ObjKind.plain, [("x", JVal.vnum 1), ("_fun", JVal.vstr "old")]⟩ :=
  ⟨by rfl,
   (debugF_traceF_caller_object_unchanged cl0 objHeap 0
     [("x", JVal.vnum 1), ("_fun", JVal.vstr "old")] "myFun" [JVal.vstr "msg"] (by rfl)).1⟩

/-- C3: `debugF(f)` and `traceF(f)` with no further arguments emit no
record at all and leave the heap unchanged. -/
theorem debugF_traceF_empty_args_no_emission (l : ContextLogger) (h : Heap)
    (f : String) :
    l.debugF h f [] = (h, []) ∧ l.traceF h f [] = (h, []) :=
  ⟨rfl, rfl⟩

/-- C4: when the first argument is an `Error` instance, `debugF` forwards
the arguments unchanged to the plain `debug` method (and `traceF` to
`trace`): the emission is identical to the plain severity call and the
heap (hence the error object) is untouched. -/
theorem debugF_traceF_error_passthrough (l : ContextLogger) (h : Heap)
    (a : Nat) (fs : List (String × JVal)) (f : String) (rest : List JVal)
    (ha : h[a]? = some ⟨ObjKind.error, fs⟩) :
    l.debugF h f (JVal.vref a :: rest) = (h, l.debug (JVal.vref a :: rest)) ∧
    l.traceF h f (JVal.vref a :: rest) = (h, l.trace (JVal.vref a :: rest)) := by
  have e1 : isErrorVal h (JVal.vref a) = true := by simp [isErrorVal, ha]
  exact ⟨by simp [ContextLogger.debugF, e1, ContextLogger.debug],
         by simp [ContextLogger.traceF, e1, ContextLogger.trace]⟩

/-- C4 witness: concrete evaluation on an `Error` cell. -/
theorem debugF_traceF_error_passthrough_witness :
    (([⟨ObjKind.error, [("message", JVal.vstr "boom")]⟩] : Heap)[0]? =
      some ⟨ObjKind.error, [("message", JVal.vstr "boom")]⟩) ∧
    cl0.debugF [⟨ObjKind.error, [("message", JVal.vstr "boom")]⟩] "f"
        (JVal.vref 0 :: [JVal.vstr "msg"]) =
      ([⟨ObjKind.error, [("message", JVal.vstr "boom")]⟩],
       cl0.debug (JVal.vref 0 :: [JVal.vstr "msg"])) :=
  ⟨by rfl,
   (debugF_traceF_error_passthrough cl0 [⟨ObjKind.error, [("message", JVal.vstr "boom")]⟩]
     0 [("message", JVal.vstr "boom")] "f" [JVal.vstr "msg"] (by rfl)).1⟩

/-- C5: when the first argument is a string, `debugF`/`traceF` prepend a
freshly allocated object `{_fun: functionName}` to the argument list, so
the sink receives (context object, message, ...rest). -/
theorem debugF_traceF_string_prepends_fun_object (l : ContextLogger) (h : Heap)
    (f s : String) (rest : List JVal) :
    l.debugF h f (JVal.vstr s :: rest) =
      (h ++ [⟨ObjKind.plain, [("_fun", JVal.vstr f)]⟩],
       [(Severity.debug, JVal.vref h.length :: JVal.vstr s :: rest)]) ∧
    l.traceF h f (JVal.vstr s :: rest) =
      (h ++ [⟨ObjKind.plain, [("_fun", JVal.vstr f)]⟩],
       [(Severity.trace, JVal.vref h.length :: JVal.vstr s :: rest)]) := by
  constructor <;>
    simp [ContextLogger.debugF, ContextLogger.traceF, isErrorVal, jsTypeof,
      allocObj, Sink.debug, Sink.trace]

/-- C6 counterexample: an array first argument is NOT passed through
unchanged — `debugF` on the array `[1]` emits a reference to a freshly
allocated plain-object copy, not the original array. -/
theorem debugF_array_not_passthrough_cex :
    ¬ (cl0.debugF arrHeap "f" [JVal.vref 0] =
        (arrHeap, [(Severity.debug, [JVal.vref 0])])) := by
  decide

/-- C6 amended: a number, boolean, `null` or `undefined` first argument is
passed through unchanged with no augmentation; an array first argument,
however, satisfies `typeof === 'object' && !== null` and is replaced by a
freshly allocated plain-object shallow copy (index keys as fields) with
`_fun` set. -/
theorem debugF_traceF_other_first_arg (l : ContextLogger) (h : Heap)
    (f : String) (rest : List JVal) :
    (∀ n : Int,
      l.debugF h f (JVal.vnum n :: rest) = (h, [(Severity.debug, JVal.vnum n :: rest)]) ∧
      l.traceF h f (JVal.vnum n :: rest) = (h, [(Severity.trace, JVal.vnum n :: rest)])) ∧
    (∀ b : Bool,
      l.debugF h f (JVal.vbool b :: rest) = (h, [(Severity.debug, JVal.vbool b :: rest)]) ∧
      l.traceF h f (JVal.vbool b :: rest) = (h, [(Severity.trace, JVal.vbool b :: rest)])) ∧
    (l.debugF h f (JVal.vnull :: rest) = (h, [(Severity.debug, JVal.vnull :: rest)]) ∧
      l.traceF h f (JVal.vnull :: rest) = (h, [(Severity.trace, JVal.vnull :: rest)])) ∧
    (l.debugF h f (JVal.vundef :: rest) = (h, [(Severity.debug, JVal.vundef :: rest)]) ∧
      l.traceF h f (JVal.vundef :: rest) = (h, [(Severity.trace, JVal.vundef :: rest)])) ∧
    (∀ (a : Nat) (es : List (String × JVal)), h[a]? = some ⟨ObjKind.array, es⟩ →
      l.debugF h f (JVal.vref a :: rest) =
        (h ++ [⟨ObjKind.plain, setField es "_fun" (JVal.vstr f)⟩],
         [(Severity.debug, JVal.vref h.length :: rest)]) ∧
      l.traceF h f (JVal.vref a :: rest) =
        (h ++ [⟨ObjKind.plain, setField es "_fun" (JVal.vstr f)⟩],
         [(Severity.trace, JVal.vref h.length :: rest)])) := by
  refine ⟨fun n => ⟨?_, ?_⟩, fun b => ⟨?_, ?_⟩, ⟨?_, ?_⟩, ⟨?_, ?_⟩,
    fun a es ha => ⟨debugF_obj_branch l h a ObjKind.array es f rest ha (by decide),
      traceF_obj_branch l h a ObjKind.array es f rest ha (by decide)⟩⟩ <;>
    simp [ContextLogger.debugF, ContextLogger.traceF, isErrorVal, jsTypeof,
      Sink.debug, Sink.trace]

/-- C6 amended witness: concrete evaluation on a number and on the array
`[1]`. -/
theorem debugF_traceF_other_first_arg_witness :
    (arrHeap[0]? = some ⟨ObjKind.array, [("0", JVal.vnum 1)]⟩) ∧
    cl0.debugF arrHeap "f" (JVal.vnum 5 :: []) =
      (arrHeap, [(Severity.debug, JVal.vnum 5 :: [])]) ∧
    cl0.debugF arrHeap "f" (JVal.vref 0 :: []) =
      (arrHeap ++ [⟨ObjKind.plain, setField [("0", JVal.vnum 1)] "_fun" (JVal.vstr "f")⟩],
       [(Severity.debug, JVal.vref arrHeap.length :: [])]) :=
  ⟨by rfl,
   ((debugF_traceF_other_first_arg cl0 arrHeap "f" []).1 5).1,
   ((debugF_traceF_other_first_arg cl0 arrHeap "f" []).2.2.2.2 0
     [("0", JVal.vnum 1)] (by rfl)).1⟩

/-- C7: the sink wrapped by `getContextLogger(m, c)` is never the base
logger itself (fresh allocation address), and its bound context extends
the base logger's context (which binds the `_app` identity) with `_mod`
then `_cls`, in that order: the class-level child is derived from the
module-level child. -/
theorem getContextLogger_fresh_sink_superset_context (env : ProcEnv)
    (m c : String) :
    (getContextLogger env (some m) (some c)).pinoLogger.addr ≠ (baseLogger env).addr ∧
    (getContextLogger env (some m) (some c)).pinoLogger.bindings =
      (baseLogger env).bindings ++ [("_mod", JVal.vstr m), ("_cls", JVal.vstr c)] ∧
    (baseLogger env).bindings = [("_app", appIdentity env)] := by
  refine ⟨?_, ?_, ?_⟩ <;>
    simp [getContextLogger, getLogger, baseLogger, Sink.child, pinoRoot]

/-- C8: with no `logger` config section the root sink is built with level
`"info"` and `enabled = true`; and for every configuration, the resolved
`enabled` is `false` exactly when the configured value is the boolean
literal `false`, and `true` for every other value (including falsy ones
such as `0`). -/
theorem loggerConfig_defaults_and_enabled_iff (env : ProcEnv) :
    (env.cfgLogger = none →
      (pinoRoot (loggerConfig env)).level = JVal.vstr "info" ∧
      (pinoRoot (loggerConfig env)).enabled = JVal.vbool true) ∧
    (getField (loggerConfig env) "enabled" = JVal.vbool false ↔
      getField (rawLoggerSection env) "enabled" = JVal.vbool false) ∧
    (getField (rawLoggerSection env) "enabled" ≠ JVal.vbool false →
      getField (loggerConfig env) "enabled" = JVal.vbool true) := by
  have hne : ("level" : String) ≠ "enabled" := by decide
  have hen : getField (loggerConfig env) "enabled" =
      JVal.vbool (!(getField (rawLoggerSection env) "enabled" = JVal.vbool false)) := by
    simp only [loggerConfig]
    rw [getField_setField_self, getField_setField_ne _ _ _ _ hne]
  refine ⟨fun hnone => ?_, ?_, fun hval => ?_⟩
  · have hraw : rawLoggerSection env = [] := by simp [rawLoggerSection, hnone]
    constructor <;>
      simp [pinoRoot, loggerConfig, hraw, getField, setField, jsOr, truthy]
  · rw [hen]
    simp
  · rw [hen]
    simp [hval]

/-- C8 witness: concrete evaluation with no `logger` section and with
`{logger: {enabled: 0}}`. -/
theorem loggerConfig_defaults_and_enabled_iff_witness :
    (envNoLogger.cfgLogger = none) ∧
    (pinoRoot (loggerConfig envNoLogger)).level = JVal.vstr "info" ∧
    (pinoRoot (loggerConfig envNoLogger)).enabled = JVal.vbool true ∧
    (getField (rawLoggerSection envEnabledZero) "enabled" ≠ JVal.vbool false) ∧
    getField (loggerConfig envEnabledZero) "enabled" = JVal.vbool true :=
  ⟨rfl,
   ((loggerConfig_defaults_and_enabled_iff envNoLogger).1 rfl).1,
   ((loggerConfig_defaults_and_enabled_iff envNoLogger).1 rfl).2,
   by decide,
   (loggerConfig_defaults_and_enabled_iff envEnabledZero).2.2 (by decide)⟩

/-- C9 counterexample: with `appName` configured as the empty string and a
script path present, the `_app` identity is the script path, not the
configured `appName` — the precedence is by JavaScript truthiness, not by
presence. -/
theorem appIdentity_configured_empty_appName_cex :
    envC9.cfgAppName = some (JVal.vstr "") ∧ appIdentity envC9 ≠ JVal.vstr "" :=
  ⟨rfl, by decide⟩

/-- C9 amended: the `_app` identity is the configured `appName` when that
value is truthy; otherwise `process.argv[1]` when truthy; otherwise
`process.pid` — so a configured but falsy `appName` (such as the empty
string) is skipped, and likewise a falsy invocation argument. -/
theorem appIdentity_truthy_precedence (env : ProcEnv) :
    (truthy (appNameVal env) = true → appIdentity env = appNameVal env) ∧
    (truthy (appNameVal env) = false → truthy env.argv1 = true →
      appIdentity env = env.argv1) ∧
    (truthy (appNameVal env) = false → truthy env.argv1 = false →
      appIdentity env = JVal.vnum env.pid) := by
  refine ⟨fun h1 => ?_, fun h1 h2 => ?_, fun h1 h2 => ?_⟩ <;>
    simp [appIdentity, jsOr, h1]
  · simp [h2]
  · simp [h2]

/-- C9 amended witness: concrete evaluation at the empty-string `appName`
environment. -/
theorem appIdentity_truthy_precedence_witness :
    truthy (appNameVal envC9) = false ∧ truthy envC9.argv1 = true ∧
    appIdentity envC9 = envC9.argv1 :=
  ⟨by decide, by decide,
   (appIdentity_truthy_precedence envC9).2.1 (by decide) (by decide)⟩

/-- C10: when the caller's plain object already contains a `_fun` field,
the emitted shallow copy's `_fun` field equals the `functionName`
parameter — the injected function name overwrites the pre-existing value,
for `debugF` and `traceF` alike. -/
theorem debugF_traceF_fun_overwrite (l : ContextLogger) (h : Heap) (a : Nat)
    (fs : List (String × JVal)) (f : String) (rest : List JVal)
    (ha : h[a]? = some ⟨ObjKind.plain, fs⟩)
    (_hmem : "_fun" ∈ fs.map Prod.fst) :
    ((l.debugF h f (JVal.vref a :: rest)).1)[h.length]? =
      some ⟨ObjKind.plain, setField fs "_fun" (JVal.vstr f)⟩ ∧
    ((l.traceF h f (JVal.vref a :: rest)).1)[h.length]? =
      some ⟨ObjKind.plain, setField fs "_fun" (JVal.vstr f)⟩ ∧
    getField (setField fs "_fun" (JVal.vstr f)) "_fun" = JVal.vstr f ∧
    (l.debugF h f (JVal.vref a :: rest)).2 =
      [(Severity.debug, JVal.vref h.length :: rest)] ∧
    (l.traceF h f (JVal.vref a :: rest)).2 =
      [(Severity.trace, JVal.vref h.length :: rest)] := by
  have hd := debugF_obj_branch l h a ObjKind.plain fs f rest ha (by decide)
  have ht := traceF_obj_branch l h a ObjKind.plain fs f rest ha (by decide)
  refine ⟨?_, ?_, getField_setField_self fs "_fun" (JVal.vstr f), ?_, ?_⟩ <;>
    simp [hd, ht, List.getElem?_concat_length]

/-- C10 witness: concrete evaluation on `{x: 1, _fun: 'old'}` — the copy's
`_fun` is `'myFun'`, not `'old'`. -/
theorem debugF_traceF_fun_overwrite_witness :
    (objHeap[0]? = some ⟨ObjKind.plain, [("x", JVal.vnum 1), ("_fun", JVal.vstr "old")]⟩) ∧
    ("_fun" ∈ ([("x", JVal.vnum 1), ("_fun", JVal.vstr "old")].map Prod.fst)) ∧
    getField (setField [("x", JVal.vnum 1), ("_fun", JVal.vstr "old")] "_fun"
      (JVal.vstr "myFun")) "_fun" = JVal.vstr "myFun" ∧
    ((cl0.debugF objHeap "myFun" (JVal.vref 0 :: [])).1)[objHeap.length]? =
      some ⟨ObjKind.plain, setField [("x", JVal.vnum 1), ("_fun", JVal.vstr "old")]
        "_fun" (JVal.vstr "myFun")⟩ :=
  ⟨by rfl, by decide,
   (debugF_traceF_fun_overwrite cl0 objHeap 0
     [("x", JVal.vnum 1), ("_fun", JVal.vstr "old")] "myFun" [] (by rfl) (by decide)).2.2.1,
   (debugF_traceF_fun_overwrite cl0 objHeap 0
     [("x", JVal.vnum 1), ("_fun", JVal.vstr "old")] "myFun" [] (by rfl) (by decide)).1⟩
